import Mathlib

/-!
Verification development for the company-catalog semantic search engine.

The definitions below are a shallow embedding of the Python sources:
`validators.py`, `database_core.py`, `embedding.py`, `search.py`,
`filters.py` and `main.py`.  Machine floats are modelled as exact
rationals, Python exceptions as an explicit error type threaded through
`Except`, and the two module-level vector stores plus the two FAISS
indices as one explicit state record.  External effects (the OpenAI
embedding call, FAISS index insertion) are modelled as oracle
parameters: the caller supplies the vector an embedding call would
return, or a flag saying the call fails.
-/

set_option maxRecDepth 4000

/-- Exception kinds of `models.py`.  `database` stands for a plain
`DatabaseError`, the base class; `validation`, `notFound` and
`embedding` stand for its subclasses `ValidationError`,
`CompanyNotFoundError` and `EmbeddingError`.  A value of this type
records the dynamic class of the raised exception object. -/
inductive PyErr where
  | validation
  | notFound
  | embedding
  | database
deriving DecidableEq

deriving instance DecidableEq for Except

/-- Python values that can appear as a field of a company dict.  Finite
floats are exact rationals; non-numeric objects other than strings are
collapsed into `vOther`. -/
inductive PyVal where
  | vNone
  | vBool (b : Bool)
  | vInt (n : ℤ)
  | vFloat (q : ℚ)
  | vStr (s : String)
  | vOther
deriving DecidableEq

/-- ASCII whitespace, the fragment of Python `str.strip` exercised by
this code base. -/
def is_space_char (c : Char) : Bool :=
  c == ' ' || c == '\t' || c == '\n' || c == '\r'

def drop_leading_space : List Char → List Char
  | [] => []
  | c :: cs => if is_space_char c then drop_leading_space cs else c :: cs

/-- Python `str.strip()` (ASCII whitespace). -/
def pyStrip (s : String) : String :=
  String.mk ((drop_leading_space (drop_leading_space s.data).reverse).reverse)

/-- Python `str.lower()` (ASCII case folding). -/
def pyLower (s : String) : String :=
  String.mk (s.data.map Char.toLower)

/-- Python `int(x)` on a finite float: truncation toward zero. -/
def ratTrunc (q : ℚ) : ℤ := Int.tdiv q.num q.den

/-- Python `round` to an integer: round half to even. -/
def pyRoundHalfEven (y : ℚ) : ℤ :=
  let f : ℤ := Int.ediv y.num y.den
  if y - f < 1/2 then f
  else if (1 : ℚ)/2 < y - f then f + 1
  else if f % 2 = 0 then f else f + 1

-- === validators.py ===

/-- `DatabaseConfig` constants from `config.py`. -/
def MIN_REVENUE : ℤ := 0
def MAX_REVENUE : ℤ := 1000000000000
def MIN_TEAM_SIZE : ℤ := 1
def MAX_TEAM_SIZE : ℤ := 1000000
def MIN_FOUNDED_YEAR : ℤ := 1800
def MAX_FOUNDED_YEAR : ℤ := 2100
def MAX_STRING_LENGTH : ℕ := 10000
def DEFAULT_TOP_K : ℕ := 3

/-- `validators.validate_string_field` (with `required=True`, the only
way the code base calls it for company fields). -/
def validate_string_field (value : PyVal) : Except PyErr String :=
  match value with
  | .vStr s =>
    let t := pyStrip s
    if t = "" then .error .validation
    else if MAX_STRING_LENGTH < t.length then .error .validation
    else .ok t
  | .vNone => .error .validation
  | _ => .error .validation

/-- The numeric coercion `int(value)` performed by
`validate_integer_field` after the `isinstance(value, (int, float))`
check.  `bool` passes the isinstance check because it subclasses `int`.
Returns `none` exactly when the value is `None` or non-numeric. -/
def py_int_of_val : PyVal → Option ℤ
  | .vInt n => some n
  | .vBool b => some (if b then 1 else 0)
  | .vFloat q => some (ratTrunc q)
  | _ => none

/-- `validators.validate_integer_field`. -/
def validate_integer_field (value : PyVal) (min_val max_val : ℤ) : Except PyErr ℤ :=
  match py_int_of_val value with
  | none => .error .validation
  | some n => if n < min_val ∨ max_val < n then .error .validation else .ok n

-- === database_core.py dict-level store (used by main.add_company) ===

/-- A Python dict holding company data: association list keyed by field
name, first binding wins. -/
def PyDict := List (String × PyVal)

instance : DecidableEq PyDict := by
  unfold PyDict
  infer_instance

def dict_lookup (d : PyDict) (k : String) : Option PyVal :=
  match d.find? (fun p => p.1 == k) with
  | some p => some p.2
  | none => none

/-- `DatabaseConfig.REQUIRED_FIELDS`. -/
def REQUIRED_FIELDS : List String :=
  ["name", "industry", "location", "revenue", "team_size",
   "founded", "website", "description", "needs", "challenges"]

/-- Key presence test `field in company_data`. -/
def has_field (d : PyDict) (k : String) : Bool := (dict_lookup d k).isSome

def all_fields_present (d : PyDict) : Bool := REQUIRED_FIELDS.all (has_field d)

/-- `main.add_company`: checks only that every required KEY is present,
then appends and returns the new last index. -/
def add_company (company_data : PyDict) (company_db : List PyDict) :
    Except PyErr (List PyDict × ℕ) :=
  if all_fields_present company_data then
    .ok (company_db ++ [company_data], company_db.length)
  else
    .error .validation

/-- The store mutation performed by `main.update_company` (and
`DatabaseManager.update_company`): index check, then key-presence
check, then in-place replacement.  Field values are not validated. -/
def update_company_store (i : ℤ) (company_data : PyDict) (company_db : List PyDict) :
    Except PyErr (List PyDict) :=
  if 0 ≤ i ∧ i.toNat < company_db.length then
    if all_fields_present company_data then
      .ok (company_db.set i.toNat company_data)
    else
      .error .validation
  else
    .error .notFound

/-- Per-field validity according to `validate_company_data`: the rule
the Validation Layer applies to the field of that name. -/
def field_rule_ok (k : String) (v : PyVal) : Bool :=
  if k = "revenue" then
    match validate_integer_field v MIN_REVENUE MAX_REVENUE with
    | .ok _ => true
    | .error _ => false
  else if k = "team_size" then
    match validate_integer_field v MIN_TEAM_SIZE MAX_TEAM_SIZE with
    | .ok _ => true
    | .error _ => false
  else if k = "founded" then
    match validate_integer_field v MIN_FOUNDED_YEAR MAX_FOUNDED_YEAR with
    | .ok _ => true
    | .error _ => false
  else
    match validate_string_field v with
    | .ok _ => true
    | .error _ => false

/-- A stored dict satisfies the Validation Layer: all ten fields
present and each individually valid. -/
def record_fields_valid (d : PyDict) : Bool :=
  REQUIRED_FIELDS.all (fun k =>
    match dict_lookup d k with
    | some v => field_rule_ok k v
    | none => false)

-- === typed record model (post-validation company dicts) ===

/-- An embedding vector: fixed-dimension float array, modelled with
exact rationals.  The `None` placeholders that `update_company` can pad
vector lists with are modelled as the empty vector. -/
abbrev Vec := List ℚ

/-- A validated company record, the shape every dict created by
`validate_company_data` has.  Field names follow
`DatabaseConfig.REQUIRED_FIELDS`. -/
structure Company where
  name : String
  industry : String
  location : String
  revenue : ℤ
  team_size : ℤ
  founded : ℤ
  website : String
  description : String
  needs : String
  challenges : String
deriving DecidableEq

def default_company : Company :=
  { name := "", industry := "", location := "", revenue := 0, team_size := 1,
    founded := 2000, website := "", description := "", needs := "", challenges := "" }

instance : Inhabited Company := ⟨default_company⟩

/-- The module-level state of `search.py`: the record store, the two
vector lists, the two FAISS indices (a FAISS `IndexFlatL2` is just its
insertion-ordered vector contents) and the shared dirty flag. -/
structure DB where
  company_db : List Company
  vector_db : List Vec
  needs_vector_db : List Vec
  index : List Vec
  needs_index : List Vec
  index_dirty : Bool
deriving DecidableEq

def emptyDB : DB :=
  { company_db := [], vector_db := [], needs_vector_db := [],
    index := [], needs_index := [], index_dirty := false }

/-- `database_core.get_company` via `get_item_by_index`: in-range index
gives the record, anything else gives `None`. -/
def get_company (idx : ℤ) (db_list : List Company) : Option Company :=
  if 0 ≤ idx ∧ idx.toNat < db_list.length then
    some (db_list.getD idx.toNat default_company)
  else
    none

-- === embedding.py ===

/-- `embedding.combine_text_blob`. -/
def combine_text_blob (description challenges : String) : String :=
  description ++ ". Challenges: " ++ challenges

/-- `embedding.round_score` with the default 3 decimals
(`DEFAULT_SCORE_DECIMALS`). -/
def round_score (score : ℚ) : ℚ := (pyRoundHalfEven (score * 1000) : ℚ) / 1000

/-- Squared Euclidean (L2 squared) distance, the metric of FAISS
`IndexFlatL2`. -/
def sqDist (u v : Vec) : ℚ :=
  (List.zipWith (fun a b => (a - b) * (a - b)) u v).sum

/-- 32-bit `FLT_MAX`, the distance FAISS reports for padding slots when
fewer than `k` vectors are indexed. -/
def FLT_MAX : ℚ := 340282346638528859811704183484516925440

/-- `(position, distance)` pairs of every indexed vector against the
query, in insertion order starting at position `start`. -/
def dist_pairs (q : Vec) : List Vec → ℕ → List (ℤ × ℚ)
  | [], _ => []
  | v :: vs, start => ((start : ℤ), sqDist q v) :: dist_pairs q vs (start + 1)

/-- Insert into a distance-sorted list, after any entry with an equal
distance (so that sorting is stable in insertion order, as FAISS
breaks ties). -/
def insert_by_dist (x : ℤ × ℚ) : List (ℤ × ℚ) → List (ℤ × ℚ)
  | [] => [x]
  | y :: ys => if x.2 < y.2 then x :: y :: ys else y :: insert_by_dist x ys

def sort_by_dist (l : List (ℤ × ℚ)) : List (ℤ × ℚ) :=
  l.foldl (fun acc x => insert_by_dist x acc) []

/-- `faiss.IndexFlatL2.search`: `k` results, ascending distance, real
hits first, then `(-1, FLT_MAX)` padding when fewer than `k` vectors
are indexed. -/
def faiss_search (index_vecs : List Vec) (query : Vec) (k : ℕ) : List (ℤ × ℚ) :=
  let top := (sort_by_dist (dist_pairs query index_vecs 0)).take k
  top ++ List.replicate (k - top.length) ((-1 : ℤ), FLT_MAX)

-- === search.py: rebuild and the dirty-flag protocol ===

/-- One `faiss_index.add` loop of `rebuild_faiss_index`: adds vectors
in order into a fresh index, stopping with an error (and returning the
partial index built so far) at the first vector whose dimension does
not match. -/
def build_index_from (dim : ℕ) : List Vec → (Option PyErr × List Vec)
  | [] => (none, [])
  | v :: vs =>
    if v.length = dim then
      match build_index_from dim vs with
      | (none, built) => (none, v :: built)
      | (some e, built) => (some e, v :: built)
    else
      (some .validation, [])

/-- `search.rebuild_faiss_index`: assigns a fresh main index and fills
it, then a fresh needs index and fills it; clears the dirty flag only
after both succeed.  On failure the partially filled structure has
already been assigned to the module-level variable, and the dirty flag
keeps its old value; the raised exception is an `EmbeddingError`. -/
def rebuild_faiss_index (dim : ℕ) (s : DB) : Option PyErr × DB :=
  match build_index_from dim s.vector_db with
  | (some _, built) => (some .embedding, { s with index := built })
  | (none, built) =>
    match build_index_from dim s.needs_vector_db with
    | (some _, built2) => (some .embedding, { s with index := built, needs_index := built2 })
    | (none, built2) =>
      (none, { s with index := built, needs_index := built2, index_dirty := false })

/-- `search.ensure_indices_current`. -/
def ensure_indices_current (dim : ℕ) (s : DB) : Option PyErr × DB :=
  if s.index_dirty then rebuild_faiss_index dim s else (none, s)

/-- `search.mark_indices_dirty`. -/
def mark_indices_dirty (s : DB) : DB := { s with index_dirty := true }

-- === search.py: query paths ===

/-- `search.search_embeddings`.  `embed_query` is the oracle for the
`encode_text` call on the query (`none` = the provider fails).  The
blank-query and `top_k` validations run before the `try` block, so
they surface as `ValidationError`; everything raised inside the `try`
(rebuild failure, embedding failure) is re-raised as
`EmbeddingError`. -/
def search_embeddings (dim : ℕ) (embed_query : Option Vec) (query_text : String)
    (top_k : ℕ) (s : DB) : Except PyErr (List (ℤ × ℚ)) × DB :=
  if pyStrip query_text = "" then (.error .validation, s)
  else if top_k = 0 then (.error .validation, s)
  else
    match ensure_indices_current dim s with
    | (some _, s1) => (.error .embedding, s1)
    | (none, s1) =>
      match embed_query with
      | none => (.error .embedding, s1)
      | some q => (.ok (faiss_search s1.index q top_k), s1)

/-- `search.search_needs_embeddings`: identical, against the needs
index. -/
def search_needs_embeddings (dim : ℕ) (embed_query : Option Vec) (query_text : String)
    (top_k : ℕ) (s : DB) : Except PyErr (List (ℤ × ℚ)) × DB :=
  if pyStrip query_text = "" then (.error .validation, s)
  else if top_k = 0 then (.error .validation, s)
  else
    match ensure_indices_current dim s with
    | (some _, s1) => (.error .embedding, s1)
    | (none, s1) =>
      match embed_query with
      | none => (.error .embedding, s1)
      | some q => (.ok (faiss_search s1.needs_index q top_k), s1)

/-- The result dict of `search.create_search_result` together with the
richer dict built by the filter-only branch of
`search_companies_with_filters`; keys absent from a given dict shape
are `none`. -/
structure SearchResult where
  name : String
  match_score : Option ℚ
  description : String
  needs : String
  challenges : String
  website : String
  industry : Option String
  location : Option String
  revenue : Option ℤ
  team_size : Option ℤ
  founded : Option ℤ
deriving DecidableEq

def default_result : SearchResult :=
  { name := "", match_score := none, description := "", needs := "",
    challenges := "", website := "", industry := none, location := none,
    revenue := none, team_size := none, founded := none }

instance : Inhabited SearchResult := ⟨default_result⟩

/-- `search.create_search_result`: the `match_score` field is the
rounded raw score handed in by the caller. -/
def create_search_result (company : Company) (score : ℚ) : SearchResult :=
  { name := company.name, match_score := some (round_score score),
    description := company.description, needs := company.needs,
    challenges := company.challenges, website := company.website,
    industry := none, location := none, revenue := none,
    team_size := none, founded := none }

/-- `search.search_companies_by_text`: the whole body sits in a
`try/except Exception` that re-raises anything as a plain
`DatabaseError`. -/
def search_companies_by_text (dim : ℕ) (embed_query : Option Vec) (query : String)
    (top_k : ℕ) (s : DB) : Except PyErr (List SearchResult) × DB :=
  match search_embeddings dim embed_query query top_k s with
  | (.error _, s1) => (.error .database, s1)
  | (.ok pairs, s1) =>
    (.ok (pairs.filterMap (fun p =>
      match get_company p.1 s1.company_db with
      | some c => some (create_search_result c p.2)
      | none => none)), s1)

/-- `search.search_companies_by_needs`. -/
def search_companies_by_needs (dim : ℕ) (embed_query : Option Vec) (query : String)
    (top_k : ℕ) (s : DB) : Except PyErr (List SearchResult) × DB :=
  match search_needs_embeddings dim embed_query query top_k s with
  | (.error _, s1) => (.error .database, s1)
  | (.ok pairs, s1) =>
    (.ok (pairs.filterMap (fun p =>
      match get_company p.1 s1.company_db with
      | some c => some (create_search_result c p.2)
      | none => none)), s1)

-- === filters.py ===

/-- Bool test for a substring, Python `needle in hay` on strings. -/
def list_starts_with : List Char → List Char → Bool
  | [], _ => true
  | _ :: _, [] => false
  | a :: as, b :: bs => a == b && list_starts_with as bs

def list_has_sub (n : List Char) : List Char → Bool
  | [] => list_starts_with n []
  | b :: bs => list_starts_with n (b :: bs) || list_has_sub n bs

def str_has_sub (needle hay : String) : Bool := list_has_sub needle.data hay.data

/-- `filters.filter_by_revenue_range`. -/
def filter_by_revenue_range (db : List Company) (company_indices : List ℤ)
    (min_revenue max_revenue : Option ℤ) : List ℤ :=
  match min_revenue, max_revenue with
  | none, none => company_indices
  | mn, mx =>
    company_indices.filter (fun idx =>
      match get_company idx db with
      | some c =>
        (match mn with | some m => decide (m ≤ c.revenue) | none => true) &&
        (match mx with | some m => decide (c.revenue ≤ m) | none => true)
      | none => false)

/-- `filters.filter_by_team_size_range`. -/
def filter_by_team_size_range (db : List Company) (company_indices : List ℤ)
    (min_size max_size : Option ℤ) : List ℤ :=
  match min_size, max_size with
  | none, none => company_indices
  | mn, mx =>
    company_indices.filter (fun idx =>
      match get_company idx db with
      | some c =>
        (match mn with | some m => decide (m ≤ c.team_size) | none => true) &&
        (match mx with | some m => decide (c.team_size ≤ m) | none => true)
      | none => false)

/-- `filters.filter_by_founded_range`. -/
def filter_by_founded_range (db : List Company) (company_indices : List ℤ)
    (min_year max_year : Option ℤ) : List ℤ :=
  match min_year, max_year with
  | none, none => company_indices
  | mn, mx =>
    company_indices.filter (fun idx =>
      match get_company idx db with
      | some c =>
        (match mn with | some m => decide (m ≤ c.founded) | none => true) &&
        (match mx with | some m => decide (c.founded ≤ m) | none => true)
      | none => false)

/-- `filters.filter_by_industry`.  The source accepts a single string
or a list and immediately wraps the former in a one-element list, so
the model takes the already-wrapped list. -/
def filter_by_industry (db : List Company) (company_indices : List ℤ)
    (industries : List String) : List ℤ :=
  let industries_lower := industries.map (fun v => pyStrip (pyLower v))
  company_indices.filter (fun idx =>
    match get_company idx db with
    | some c => industries_lower.contains (pyStrip (pyLower c.industry))
    | none => false)

/-- `filters.filter_by_location`. -/
def filter_by_location (db : List Company) (company_indices : List ℤ)
    (locations : List String) : List ℤ :=
  let locations_lower := locations.map (fun v => pyStrip (pyLower v))
  company_indices.filter (fun idx =>
    match get_company idx db with
    | some c => locations_lower.contains (pyStrip (pyLower c.location))
    | none => false)

/-- `filters.filter_by_name_contains`: the pattern is lowered and
stripped, the company name only lowered. -/
def filter_by_name_contains (db : List Company) (company_indices : List ℤ)
    (name_substring : String) : List ℤ :=
  let name_lower := pyStrip (pyLower name_substring)
  company_indices.filter (fun idx =>
    match get_company idx db with
    | some c => str_has_sub name_lower (pyLower c.name)
    | none => false)

/-- `filters.filter_by_website_domain`. -/
def filter_by_website_domain (db : List Company) (company_indices : List ℤ)
    (domain : String) : List ℤ :=
  let domain_lower := pyStrip (pyLower domain)
  company_indices.filter (fun idx =>
    match get_company idx db with
    | some c => str_has_sub domain_lower (pyLower c.website)
    | none => false)

/-- The `**filters` keyword dictionary restricted to the recognized
keys; `none` models an absent key.  (A key that is present but bound
to Python `None` behaves, for the range keys, exactly like an absent
key, and is not well typed for the other keys, so `none` covers it.) -/
structure Filters where
  min_revenue : Option ℤ := none
  max_revenue : Option ℤ := none
  min_team_size : Option ℤ := none
  max_team_size : Option ℤ := none
  min_founded : Option ℤ := none
  max_founded : Option ℤ := none
  industry : Option (List String) := none
  location : Option (List String) := none
  name_contains : Option String := none
  website_domain : Option String := none
deriving DecidableEq

def no_filters : Filters := {}

/-- `filters.apply_filters`: the seven stages in source order, each
guarded by the presence of its key(s). -/
def apply_filters (db : List Company) (company_indices : List ℤ) (f : Filters) : List ℤ :=
  let l1 := if f.min_revenue.isSome || f.max_revenue.isSome then
      filter_by_revenue_range db company_indices f.min_revenue f.max_revenue
    else company_indices
  let l2 := if f.min_team_size.isSome || f.max_team_size.isSome then
      filter_by_team_size_range db l1 f.min_team_size f.max_team_size
    else l1
  let l3 := if f.min_founded.isSome || f.max_founded.isSome then
      filter_by_founded_range db l2 f.min_founded f.max_founded
    else l2
  let l4 := match f.industry with
    | some v => filter_by_industry db l3 v
    | none => l3
  let l5 := match f.location with
    | some v => filter_by_location db l4 v
    | none => l4
  let l6 := match f.name_contains with
    | some v => filter_by_name_contains db l5 v
    | none => l5
  match f.website_domain with
  | some v => filter_by_website_domain db l6 v
  | none => l6

/-- `filters.get_all_company_indices`. -/
def get_all_company_indices (db : List Company) : List ℤ :=
  (List.range db.length).map (fun n => (n : ℤ))

/-- The enriched dict built for each company by the filter-only branch
of `search_companies_with_filters` (`match_score` is `None`). -/
def filter_only_result (c : Company) : SearchResult :=
  { name := c.name, match_score := none, description := c.description,
    needs := c.needs, challenges := c.challenges, website := c.website,
    industry := some c.industry, location := some c.location,
    revenue := some c.revenue, team_size := some c.team_size,
    founded := some c.founded }

/-- The `else` branch of `search_companies_with_filters` (no text
query): filter all positions, truncate to `top_k`, enrich. -/
def filter_only_branch (top_k : ℕ) (f : Filters) (s : DB) :
    Except PyErr (List SearchResult) × DB :=
  let filtered_indices := apply_filters s.company_db (get_all_company_indices s.company_db) f
  (.ok ((filtered_indices.take top_k).filterMap (fun idx =>
    match get_company idx s.company_db with
    | some c => some (filter_only_result c)
    | none => none)), s)

/-- `filters.search_companies_with_filters`.  With a non-blank query it
runs `search_companies_by_text` with `min(top_k * 3, len(company_db))`,
then applies the filters to `candidate_indices = range(len(semantic_results))`
(the rank positions of the result list), and returns the semantic
results sitting at the surviving rank positions, truncated to `top_k`.
Everything is wrapped in a `try/except` raising `DatabaseError`. -/
def search_companies_with_filters (dim : ℕ) (embed_query : Option Vec)
    (text_query : Option String) (top_k : ℕ) (f : Filters) (s : DB) :
    Except PyErr (List SearchResult) × DB :=
  match text_query with
  | some q =>
    if pyStrip q = "" then filter_only_branch top_k f s
    else
      match search_companies_by_text dim embed_query q
          (min (top_k * 3) s.company_db.length) s with
      | (.error _, s1) => (.error .database, s1)
      | (.ok semantic_results, s1) =>
        let candidate_indices := (List.range semantic_results.length).map (fun n => (n : ℤ))
        let filtered_indices := apply_filters s1.company_db candidate_indices f
        (.ok ((filtered_indices.take top_k).filterMap (fun i =>
          if 0 ≤ i ∧ i.toNat < semantic_results.length then
            some (semantic_results.getD i.toNat default_result)
          else none)), s1)
  | none => filter_only_branch top_k f s

-- === embedding.add_embedding_to_index and main.py mutations ===

/-- `embedding.add_embedding_to_index`: dimension check, then append
to the vector list, then add to the FAISS index; any failure is
re-raised as `EmbeddingError`.  Returns the new vector list, the new
index contents and the new last position. -/
def add_embedding_to_index (dim : ℕ) (embedding : Vec)
    (vector_list faiss_vecs : List Vec) : Except PyErr (List Vec × List Vec × ℕ) :=
  if embedding.length = dim then
    .ok (vector_list ++ [embedding], faiss_vecs ++ [embedding], vector_list.length)
  else
    .error .embedding

/-- `main.create_company_profile` for already-validated data.
`embed` is the oracle for `create_embedding`; `desc_ok` and `needs_ok`
say whether the two provider calls succeed (a failed call raises
before anything is mutated).  The description embedding is added to
the main space first, the needs embedding second, and the record is
appended to the store last; the outer `try` re-raises everything as
`DatabaseError`. -/
def create_company_profile (dim : ℕ) (embed : String → Vec) (desc_ok needs_ok : Bool)
    (c : Company) (s : DB) : Except PyErr ℕ × DB :=
  if desc_ok = false then (.error .database, s)
  else if needs_ok = false then (.error .database, s)
  else
    match add_embedding_to_index dim (embed (combine_text_blob c.description c.challenges))
        s.vector_db s.index with
    | .error _ => (.error .database, s)
    | .ok (vdb, ivecs, _) =>
      let s1 := { s with vector_db := vdb, index := ivecs }
      match add_embedding_to_index dim (embed c.needs) s1.needs_vector_db s1.needs_index with
      | .error _ => (.error .database, s1)
      | .ok (nvdb, nivecs, _) =>
        let s2 := { s1 with needs_vector_db := nvdb, needs_index := nivecs }
        (.ok s2.company_db.length, { s2 with company_db := s2.company_db ++ [c] })

/-- The `while len(vector_db) <= index` padding loop of
`main.update_company`; the `None` fillers are modelled as empty
vectors. -/
def pad_to (n : ℕ) (l : List Vec) : List Vec := l ++ List.replicate (n - l.length) ([] : Vec)

/-- `main.update_company` for already-validated data: the record is
replaced in the store FIRST, then both embeddings are recomputed and
written over the vectors at the same position, and the indices are
marked dirty.  A failed embedding call leaves the already-updated
record in place (the `except` clause only re-raises as
`DatabaseError`). -/
def update_company (embed : String → Vec) (desc_ok needs_ok : Bool) (i : ℤ)
    (c : Company) (s : DB) : Except PyErr Bool × DB :=
  if 0 ≤ i ∧ i.toNat < s.company_db.length then
    let s1 := { s with company_db := s.company_db.set i.toNat c }
    if desc_ok = false then (.error .database, s1)
    else if needs_ok = false then (.error .database, s1)
    else
      let v1 := pad_to (i.toNat + 1) s1.vector_db
      let v2 := pad_to (i.toNat + 1) s1.needs_vector_db
      (.ok true, mark_indices_dirty
        { s1 with
          vector_db := v1.set i.toNat (embed (combine_text_blob c.description c.challenges)),
          needs_vector_db := v2.set i.toNat (embed c.needs) })
  else
    (.error .notFound, s)

/-- `main.delete_company`: index check, `pop(index)` on the record
store and on each vector list that is long enough, then mark dirty. -/
def delete_company (i : ℤ) (s : DB) : Except PyErr Bool × DB :=
  if 0 ≤ i ∧ i.toNat < s.company_db.length then
    (.ok true, mark_indices_dirty
      { s with
        company_db := s.company_db.eraseIdx i.toNat,
        vector_db := if i.toNat < s.vector_db.length then s.vector_db.eraseIdx i.toNat
          else s.vector_db,
        needs_vector_db := if i.toNat < s.needs_vector_db.length then
          s.needs_vector_db.eraseIdx i.toNat else s.needs_vector_db })
  else
    (.error .notFound, s)

/-- One orchestrator mutation, with its failure injections. -/
inductive DBOp where
  | opCreate (c : Company) (desc_ok needs_ok : Bool)
  | opUpdate (i : ℤ) (c : Company) (desc_ok needs_ok : Bool)
  | opDelete (i : ℤ)

def apply_db_op (dim : ℕ) (embed : String → Vec) : DBOp → DB → DB
  | .opCreate c d n, s => (create_company_profile dim embed d n c s).2
  | .opUpdate i c d n, s => (update_company embed d n i c s).2
  | .opDelete i, s => (delete_company i s).2

def run_db_ops (dim : ℕ) (embed : String → Vec) (ops : List DBOp) (s : DB) : DB :=
  ops.foldl (fun st op => apply_db_op dim embed op st) s

/-- No failure injected: both provider calls of the operation succeed
and, for a create, the produced vectors have the index dimension (so
neither `add_embedding_to_index` call fails either). -/
def op_embed_calls_ok (dim : ℕ) (embed : String → Vec) : DBOp → Bool
  | .opCreate c d n => d && n &&
      decide ((embed (combine_text_blob c.description c.challenges)).length = dim) &&
      decide ((embed c.needs).length = dim)
  | .opUpdate _ _ d n => d && n
  | .opDelete _ => true

/-- The position-consistency invariant: the vector at position i in
each space IS the embedding of the record at position i, for every
position of either structure (so in particular all three lists have
the same length). -/
def embeddings_consistent (embed : String → Vec) (s : DB) : Prop :=
  s.vector_db = s.company_db.map (fun c => embed (combine_text_blob c.description c.challenges)) ∧
  s.needs_vector_db = s.company_db.map (fun c => embed c.needs)

instance (embed : String → Vec) (s : DB) : Decidable (embeddings_consistent embed s) := by
  unfold embeddings_consistent
  infer_instance

-- === single filter criteria (for stating the conjunction law) ===

/-- One recognized key of the filter dictionary together with its
value: one entry `key: value` of the `**filters` kwargs. -/
inductive Criterion where
  | cMinRevenue (n : ℤ)
  | cMaxRevenue (n : ℤ)
  | cMinTeamSize (n : ℤ)
  | cMaxTeamSize (n : ℤ)
  | cMinFounded (n : ℤ)
  | cMaxFounded (n : ℤ)
  | cIndustry (l : List String)
  | cLocation (l : List String)
  | cNameContains (v : String)
  | cWebsiteDomain (v : String)

/-- The dictionary key a criterion binds (two criteria with the same
key cannot appear together in one dict). -/
def crit_key : Criterion → ℕ
  | .cMinRevenue _ => 0
  | .cMaxRevenue _ => 1
  | .cMinTeamSize _ => 2
  | .cMaxTeamSize _ => 3
  | .cMinFounded _ => 4
  | .cMaxFounded _ => 5
  | .cIndustry _ => 6
  | .cLocation _ => 7
  | .cNameContains _ => 8
  | .cWebsiteDomain _ => 9

/-- Add one `key: value` entry to a filter dictionary. -/
def add_crit : Criterion → Filters → Filters
  | .cMinRevenue n, f => { f with min_revenue := some n }
  | .cMaxRevenue n, f => { f with max_revenue := some n }
  | .cMinTeamSize n, f => { f with min_team_size := some n }
  | .cMaxTeamSize n, f => { f with max_team_size := some n }
  | .cMinFounded n, f => { f with min_founded := some n }
  | .cMaxFounded n, f => { f with max_founded := some n }
  | .cIndustry l, f => { f with industry := some l }
  | .cLocation l, f => { f with location := some l }
  | .cNameContains v, f => { f with name_contains := some v }
  | .cWebsiteDomain v, f => { f with website_domain := some v }

/-- The dict `{A: a}`. -/
def single_crit (a : Criterion) : Filters := add_crit a no_filters

/-- The dict `{A: a, B: b}`. -/
def pair_crit (a b : Criterion) : Filters := add_crit a (single_crit b)

-- === concrete fixtures used by evaluation theorems ===

def companyA : Company :=
  { name := "A", industry := "Tech", location := "UK", revenue := 100,
    team_size := 5, founded := 2020, website := "https://a.example",
    description := "alpha", needs := "needsA", challenges := "chalA" }

def companyB : Company :=
  { name := "B", industry := "Health", location := "Germany", revenue := 500,
    team_size := 50, founded := 2015, website := "https://b.example",
    description := "beta", needs := "needsB", challenges := "chalB" }

/-- One-record state: the stored description vector is `[0]`. -/
def dbOne : DB :=
  { company_db := [companyA], vector_db := [[0]], needs_vector_db := [[0]],
    index := [[0]], needs_index := [[0]], index_dirty := false }

/-- Two-record state where the semantic rank order (for query `[0]`)
is the reverse of the store order: position 1 is the nearest vector. -/
def dbTwo : DB :=
  { company_db := [companyA, companyB], vector_db := [[10], [0]],
    needs_vector_db := [[1], [2]], index := [[10], [0]],
    needs_index := [[1], [2]], index_dirty := false }

def min_rev_300 : Filters := { min_revenue := some 300 }

/-- A dict with all ten required keys present but an out-of-range
revenue value. -/
def bad_company_dict : PyDict :=
  [("name", .vStr "BadCo"), ("industry", .vStr "Tech"), ("location", .vStr "UK"),
   ("revenue", .vInt (-5)), ("team_size", .vInt 5), ("founded", .vInt 2020),
   ("website", .vStr "https://bad.example"), ("description", .vStr "d"),
   ("needs", .vStr "n"), ("challenges", .vStr "c")]

-- === C10 ===

/-- Claim C10: for every integer field, validation accepts any int or
float value (bool included, as an int subtype) and truncates floats
toward zero via `int()` before the inclusive range check, so revenue
0.9 passes and is stored as 0; only `None`, non-numeric values and
truncated values outside the declared range are rejected, always with
a `ValidationError`. -/
theorem validate_integer_field_truncation_law :
    (∀ (v : PyVal) (lo hi n : ℤ),
      validate_integer_field v lo hi = .ok n ↔
        py_int_of_val v = some n ∧ lo ≤ n ∧ n ≤ hi) ∧
    (∀ (v : PyVal) (lo hi : ℤ),
      validate_integer_field v lo hi = .error .validation ∨
        ∃ n, validate_integer_field v lo hi = .ok n) ∧
    validate_integer_field (.vFloat (9/10)) MIN_REVENUE MAX_REVENUE = .ok 0 ∧
    validate_integer_field (.vBool true) MIN_TEAM_SIZE MAX_TEAM_SIZE = .ok 1 ∧
    validate_integer_field (.vFloat (-9/10)) MIN_REVENUE MAX_REVENUE = .ok 0 ∧
    validate_integer_field .vNone MIN_REVENUE MAX_REVENUE = .error .validation ∧
    validate_integer_field (.vStr "5") MIN_REVENUE MAX_REVENUE = .error .validation := by
  refine ⟨?_, ?_, ?_, ?_, ?_, ?_, ?_⟩
  · intro v lo hi n
    unfold validate_integer_field
    cases hv : py_int_of_val v with
    | none => simp
    | some m =>
      by_cases hc : m < lo ∨ hi < m
      · simp only [if_pos hc]
        constructor
        · intro h
          exact absurd h (by simp)
        · rintro ⟨he, h1, h2⟩
          injection he with he
          omega
      · simp only [if_neg hc]
        push_neg at hc
        constructor
        · intro h
          injection h with h
          subst h
          exact ⟨rfl, hc.1, hc.2⟩
        · rintro ⟨he, _, _⟩
          injection he with he
          rw [he]
  · intro v lo hi
    unfold validate_integer_field
    cases py_int_of_val v with
    | none => exact Or.inl rfl
    | some m =>
      by_cases hc : m < lo ∨ hi < m
      · exact Or.inl (by simp [hc])
      · exact Or.inr ⟨m, by simp [hc]⟩
  · with_unfolding_all decide
  · with_unfolding_all decide
  · with_unfolding_all decide
  · with_unfolding_all decide
  · with_unfolding_all decide

-- === C4 ===

/-- Counterexample to claim C4: `add_company` accepts a dict whose ten
keys are all present but whose revenue is -5, which the Validation
Layer rejects; the invalid record ends up in the store. -/
theorem add_company_stores_invalid_record :
    add_company bad_company_dict [] = .ok ([bad_company_dict], 0) ∧
    record_fields_valid bad_company_dict = false ∧
    validate_integer_field (.vInt (-5)) MIN_REVENUE MAX_REVENUE = .error .validation := by
  refine ⟨?_, ?_, ?_⟩
  · with_unfolding_all decide
  · with_unfolding_all decide
  · with_unfolding_all decide

/-- Claim C4 as amended: every record in the store has all ten
required fields PRESENT, and neither `add_company` nor the store
mutation of `update_company` can insert a record with a missing field;
field-level validity is not checked on these paths. -/
theorem store_fields_present_invariant :
    (∀ (db : List PyDict) (d : PyDict) (db2 : List PyDict) (n : ℕ),
      (∀ r ∈ db, all_fields_present r = true) →
      add_company d db = .ok (db2, n) →
      ∀ r ∈ db2, all_fields_present r = true) ∧
    (∀ (i : ℤ) (d : PyDict) (db db2 : List PyDict),
      (∀ r ∈ db, all_fields_present r = true) →
      update_company_store i d db = .ok db2 →
      ∀ r ∈ db2, all_fields_present r = true) := by
  constructor
  · intro db d db2 n hdb hok r hr
    unfold add_company at hok
    by_cases hp : all_fields_present d = true
    · rw [if_pos hp] at hok
      injection hok with hok
      injection hok with hok _
      subst hok
      rcases List.mem_append.mp hr with h | h
      · exact hdb r h
      · rw [List.mem_singleton.mp h]
        exact hp
    · rw [if_neg (by simpa using hp)] at hok
      exact absurd hok (by simp)
  · intro i d db db2 hdb hok r hr
    unfold update_company_store at hok
    by_cases hidx : 0 ≤ i ∧ i.toNat < db.length
    · rw [if_pos hidx] at hok
      by_cases hp : all_fields_present d = true
      · rw [if_pos hp] at hok
        injection hok with hok
        subst hok
        rcases List.mem_or_eq_of_mem_set hr with h | h
        · exact hdb r h
        · rw [h]
          exact hp
      · rw [if_neg (by simpa using hp)] at hok
        exact absurd hok (by simp)
    · rw [if_neg hidx] at hok
      exact absurd hok (by simp)

/-- Witness for the amended C4 theorem at a concrete input. -/
theorem store_fields_present_invariant_witness :
    all_fields_present bad_company_dict = true :=
  (store_fields_present_invariant.1 [] bad_company_dict [bad_company_dict] 0
      (fun r hr => absurd hr (List.not_mem_nil r))
      (by with_unfolding_all decide))
    bad_company_dict (by simp)

-- === membership lemmas for the k-NN model ===

lemma mem_insert_by_dist {x y : ℤ × ℚ} {l : List (ℤ × ℚ)} :
    y ∈ insert_by_dist x l ↔ y = x ∨ y ∈ l := by
  induction l with
  | nil => simp [insert_by_dist]
  | cons a as ih =>
    unfold insert_by_dist
    by_cases hc : x.2 < a.2
    · simp [hc]
      try tauto
    · simp [hc, ih]
      try tauto

lemma mem_sort_fold {y : ℤ × ℚ} :
    ∀ (l acc : List (ℤ × ℚ)),
      y ∈ l.foldl (fun acc x => insert_by_dist x acc) acc ↔ y ∈ acc ∨ y ∈ l := by
  intro l
  induction l with
  | nil => simp
  | cons a as ih =>
    intro acc
    simp only [List.foldl_cons, ih, mem_insert_by_dist, List.mem_cons]
    tauto

lemma mem_sort_by_dist {y : ℤ × ℚ} {l : List (ℤ × ℚ)} :
    y ∈ sort_by_dist l ↔ y ∈ l := by
  unfold sort_by_dist
  rw [mem_sort_fold]
  simp

lemma mem_dist_pairs {q : Vec} {p : ℤ × ℚ} :
    ∀ (l : List Vec) (start : ℕ), p ∈ dist_pairs q l start →
      ∃ j : ℕ, j < l.length ∧ p = (((start + j : ℕ) : ℤ), sqDist q (l.getD j [])) := by
  intro l
  induction l with
  | nil => intro start h; exact absurd h (List.not_mem_nil p)
  | cons v vs ih =>
    intro start h
    rcases List.mem_cons.mp h with h | h
    · exact ⟨0, by simp, by simpa using h⟩
    · obtain ⟨j, hj, hp⟩ := ih (start + 1) h
      refine ⟨j + 1, by simpa using hj, ?_⟩
      rw [hp]
      congr 2
      omega

lemma mem_faiss_search {iv : List Vec} {q : Vec} {k : ℕ} {p : ℤ × ℚ}
    (h : p ∈ faiss_search iv q k) :
    p = (-1, FLT_MAX) ∨
      ∃ j : ℕ, j < iv.length ∧ p = ((j : ℤ), sqDist q (iv.getD j [])) := by
  unfold faiss_search at h
  rcases List.mem_append.mp h with h | h
  · have h2 : p ∈ sort_by_dist (dist_pairs q iv 0) := List.mem_of_mem_take h
    have h3 := mem_sort_by_dist.mp h2
    obtain ⟨j, hj, hp⟩ := mem_dist_pairs iv 0 h3
    exact Or.inr ⟨j, hj, by simpa using hp⟩
  · exact Or.inl (List.eq_of_mem_replicate h)

lemma get_company_of_neg {db : List Company} : get_company (-1) db = none := by
  unfold get_company
  norm_num

/-- Extracting the successful branch of `search_embeddings`. -/
lemma search_embeddings_ok_elim {dim : ℕ} {qv : Vec} {query : String} {top_k : ℕ}
    {s : DB} {pairs : List (ℤ × ℚ)} {s2 : DB}
    (h : search_embeddings dim (some qv) query top_k s = (.ok pairs, s2)) :
    pairs = faiss_search s2.index qv top_k ∧ ensure_indices_current dim s = (none, s2) := by
  unfold search_embeddings at h
  by_cases h1 : pyStrip query = ""
  · rw [if_pos h1] at h
    exact absurd h (by simp)
  · rw [if_neg h1] at h
    by_cases h2 : top_k = 0
    · rw [if_pos h2] at h
      exact absurd h (by simp)
    · rw [if_neg h2] at h
      cases hec : ensure_indices_current dim s with
      | mk oe s1 =>
        cases oe with
        | some e => rw [hec] at h; exact absurd h (by simp)
        | none =>
          rw [hec] at h
          have h2 := congrArg Prod.snd h
          have h1 := congrArg Prod.fst h
          simp only at h1 h2
          injection h1 with h1
          constructor
          · rw [← h2, ← h1]
          · rw [h2]

lemma search_needs_embeddings_ok_elim {dim : ℕ} {qv : Vec} {query : String} {top_k : ℕ}
    {s : DB} {pairs : List (ℤ × ℚ)} {s2 : DB}
    (h : search_needs_embeddings dim (some qv) query top_k s = (.ok pairs, s2)) :
    pairs = faiss_search s2.needs_index qv top_k ∧
      ensure_indices_current dim s = (none, s2) := by
  unfold search_needs_embeddings at h
  by_cases h1 : pyStrip query = ""
  · rw [if_pos h1] at h
    exact absurd h (by simp)
  · rw [if_neg h1] at h
    by_cases h2 : top_k = 0
    · rw [if_pos h2] at h
      exact absurd h (by simp)
    · rw [if_neg h2] at h
      cases hec : ensure_indices_current dim s with
      | mk oe s1 =>
        cases oe with
        | some e => rw [hec] at h; exact absurd h (by simp)
        | none =>
          rw [hec] at h
          have h2 := congrArg Prod.snd h
          have h1 := congrArg Prod.fst h
          simp only at h1 h2
          injection h1 with h1
          constructor
          · rw [← h2, ← h1]
          · rw [h2]

-- === C1 ===

/-- Counterexample to claim C1: with one stored vector `[0]` and a
query embedding `[2]`, the squared distance is 4 and the returned
`match_score` is 4 itself (rounded), not the similarity
`1 / (1 + 4) = 0.2`, and it does not lie in (0, 1]. -/
theorem match_score_not_inverse_distance :
    (search_companies_by_text 1 (some [2]) "ai query" 3 dbOne).1 =
      .ok [create_search_result companyA 4] ∧
    (create_search_result companyA 4).match_score = some 4 ∧
    ¬ ((4 : ℚ) ≤ 1) ∧
    round_score (1 / (1 + 4)) = 1/5 ∧
    (4 : ℚ) ≠ 1/5 := by
  refine ⟨?_, ?_, ?_, ?_, ?_⟩
  · with_unfolding_all decide
  · with_unfolding_all decide
  · with_unfolding_all decide
  · with_unfolding_all decide
  · with_unfolding_all decide

/-- Claim C1 as amended: every result returned by
`search_companies_by_text` or `search_companies_by_needs` carries as
`match_score` the matched vector's squared Euclidean distance itself,
rounded to 3 decimal places (`create_search_result` applies
`round_score`); the distance lies in [0, number-range), not (0, 1],
and no `1 / (1 + d)` transform is applied on these paths. -/
theorem match_score_is_rounded_distance :
    (∀ (dim : ℕ) (qv : Vec) (query : String) (top_k : ℕ) (s : DB)
        (rs : List SearchResult) (s2 : DB),
      search_companies_by_text dim (some qv) query top_k s = (.ok rs, s2) →
      ∀ r ∈ rs, ∃ j : ℕ, j < s2.index.length ∧ ∃ c : Company,
        get_company (j : ℤ) s2.company_db = some c ∧
        r = create_search_result c (sqDist qv (s2.index.getD j []))) ∧
    (∀ (dim : ℕ) (qv : Vec) (query : String) (top_k : ℕ) (s : DB)
        (rs : List SearchResult) (s2 : DB),
      search_companies_by_needs dim (some qv) query top_k s = (.ok rs, s2) →
      ∀ r ∈ rs, ∃ j : ℕ, j < s2.needs_index.length ∧ ∃ c : Company,
        get_company (j : ℤ) s2.company_db = some c ∧
        r = create_search_result c (sqDist qv (s2.needs_index.getD j []))) := by
  constructor
  · intro dim qv query top_k s rs s2 h r hr
    unfold search_companies_by_text at h
    cases hse : search_embeddings dim (some qv) query top_k s with
    | mk res s1 =>
      cases res with
      | error e => rw [hse] at h; exact absurd h (by simp)
      | ok pairs =>
        rw [hse] at h
        have h1 := congrArg Prod.fst h
        have h2 := congrArg Prod.snd h
        simp only at h1 h2
        injection h1 with h1
        subst h2
        obtain ⟨hp, _⟩ := search_embeddings_ok_elim hse
        rw [← h1] at hr
        obtain ⟨p, hpmem, hpeq⟩ := List.mem_filterMap.mp hr
        cases hgc : get_company p.1 s1.company_db with
        | none => rw [hgc] at hpeq; exact absurd hpeq (by simp)
        | some c =>
          rw [hgc] at hpeq
          have hr2 : r = create_search_result c p.2 := by
            injection hpeq with hpeq
            exact hpeq.symm
          rw [hp] at hpmem
          rcases mem_faiss_search hpmem with hneg | ⟨j, hj, hpj⟩
          · rw [hneg] at hgc
            rw [get_company_of_neg] at hgc
            exact absurd hgc (by simp)
          · refine ⟨j, hj, c, ?_, ?_⟩
            · rw [← hgc]
              congr 1
              rw [hpj]
            · rw [hr2, hpj]
  · intro dim qv query top_k s rs s2 h r hr
    unfold search_companies_by_needs at h
    cases hse : search_needs_embeddings dim (some qv) query top_k s with
    | mk res s1 =>
      cases res with
      | error e => rw [hse] at h; exact absurd h (by simp)
      | ok pairs =>
        rw [hse] at h
        have h1 := congrArg Prod.fst h
        have h2 := congrArg Prod.snd h
        simp only at h1 h2
        injection h1 with h1
        subst h2
        obtain ⟨hp, _⟩ := search_needs_embeddings_ok_elim hse
        rw [← h1] at hr
        obtain ⟨p, hpmem, hpeq⟩ := List.mem_filterMap.mp hr
        cases hgc : get_company p.1 s1.company_db with
        | none => rw [hgc] at hpeq; exact absurd hpeq (by simp)
        | some c =>
          rw [hgc] at hpeq
          have hr2 : r = create_search_result c p.2 := by
            injection hpeq with hpeq
            exact hpeq.symm
          rw [hp] at hpmem
          rcases mem_faiss_search hpmem with hneg | ⟨j, hj, hpj⟩
          · rw [hneg] at hgc
            rw [get_company_of_neg] at hgc
            exact absurd hgc (by simp)
          · refine ⟨j, hj, c, ?_, ?_⟩
            · rw [← hgc]
              congr 1
              rw [hpj]
            · rw [hr2, hpj]

/-- Witness for the amended C1 theorem at a concrete search. -/
theorem match_score_is_rounded_distance_witness :
    ∃ j : ℕ, j < dbOne.index.length ∧ ∃ c : Company,
      get_company (j : ℤ) dbOne.company_db = some c ∧
      create_search_result companyA 4 =
        create_search_result c (sqDist [2] (dbOne.index.getD j [])) :=
  match_score_is_rounded_distance.1 1 [2] "ai query" 3 dbOne
    [create_search_result companyA 4] dbOne (by with_unfolding_all decide)
    (create_search_result companyA 4) (by simp)

-- === C2 ===

/-- Evaluation of claim C2 at a failing input: in `dbTwo`, semantic
rank order (B first, A second) reverses store order.  With
`min_revenue = 300` the only store position whose record passes the
filter is 1 (company B, revenue 500), yet
`search_companies_with_filters` returns company A (revenue 100),
because `apply_filters` is run over the RANK positions
`range(len(semantic_results))` and its output is used to index the
semantic result list. -/
theorem filters_applied_to_rank_positions :
    (search_companies_with_filters 1 (some [0]) (some "growth") 2 min_rev_300 dbTwo).1 =
      .ok [create_search_result companyA 100] ∧
    companyA.revenue = 100 ∧
    ¬ (300 ≤ companyA.revenue) ∧
    apply_filters dbTwo.company_db [0, 1] min_rev_300 = [1] ∧
    (search_companies_by_text 1 (some [0]) "growth" 2 dbTwo).1 =
      .ok [create_search_result companyB 0, create_search_result companyA 100] := by
  refine ⟨?_, ?_, ?_, ?_, ?_⟩
  · with_unfolding_all decide
  · with_unfolding_all decide
  · with_unfolding_all decide
  · with_unfolding_all decide
  · with_unfolding_all decide

-- === C5 ===

/-- Evaluation of claim C5 at a failing input: on an EMPTY store,
`search_companies_with_filters` with a non-blank query raises (the
oversampled `top_k` becomes `min(3 * 3, 0) = 0`, which
`search_embeddings` rejects, and the wrapper re-raises
`DatabaseError`), while the plain search paths do return an empty
sequence, as does the combined search when records exist but none
matches the filters. -/
theorem empty_store_query_with_filters_errors :
    search_companies_with_filters 1 (some [0]) (some "hello") 3 no_filters emptyDB =
      (.error .database, emptyDB) ∧
    (search_companies_by_text 1 (some [0]) "hello" 3 emptyDB).1 = .ok [] ∧
    (search_companies_by_needs 1 (some [0]) "hello" 3 emptyDB).1 = .ok [] ∧
    (search_companies_with_filters 1 (some [0]) (some "hello") 2
      { min_revenue := some 999999999 } dbTwo).1 = .ok [] := by
  refine ⟨?_, ?_, ?_, ?_⟩
  · with_unfolding_all decide
  · with_unfolding_all decide
  · with_unfolding_all decide
  · with_unfolding_all decide

-- === C6 ===

/-- Counterexample to claim C6: a whitespace-only query makes
`search_companies_by_text` and `search_companies_by_needs` raise a
plain `DatabaseError` (the inner `ValidationError` is caught by the
blanket `except Exception` and re-raised as the base class), which is
neither a `ValidationError` nor an `EmbeddingError`. -/
theorem blank_query_error_is_database_error :
    (search_companies_by_text 1 none "   " 3 dbOne).1 = .error .database ∧
    (search_companies_by_needs 1 none "   " 3 dbOne).1 = .error .database ∧
    PyErr.database ≠ PyErr.validation ∧
    PyErr.database ≠ PyErr.embedding := by
  refine ⟨?_, ?_, ?_, ?_⟩
  · with_unfolding_all decide
  · with_unfolding_all decide
  · with_unfolding_all decide
  · with_unfolding_all decide

/-- Claim C6 as amended: for every empty or whitespace-only query both
search functions fail with a `DatabaseError` wrapping the inner
`ValidationError`, and they do so before any vector-index access or
rebuild is attempted: the state, including a dirty index, is returned
untouched. -/
theorem blank_query_fails_before_index_access :
    ∀ (dim : ℕ) (eq : Option Vec) (q : String) (k : ℕ) (s : DB),
      pyStrip q = "" →
      search_companies_by_text dim eq q k s = (.error .database, s) ∧
      search_companies_by_needs dim eq q k s = (.error .database, s) := by
  intro dim eq q k s hblank
  constructor
  · unfold search_companies_by_text search_embeddings
    rw [if_pos hblank]
  · unfold search_companies_by_needs search_needs_embeddings
    rw [if_pos hblank]

/-- Witness for the amended C6 theorem: a whitespace query against a
DIRTY state returns with the dirty flag still set and the index not
rebuilt. -/
theorem blank_query_fails_before_index_access_witness :
    search_companies_by_text 1 none "  " 3 (mark_indices_dirty dbOne) =
      (.error .database, mark_indices_dirty dbOne) ∧
    search_companies_by_needs 1 none "  " 3 (mark_indices_dirty dbOne) =
      (.error .database, mark_indices_dirty dbOne) :=
  blank_query_fails_before_index_access 1 none "  " 3 (mark_indices_dirty dbOne)
    (by with_unfolding_all decide)

-- === C7 ===

lemma erase_idx_len {α : Type} (l : List α) (i : ℕ) (h : i < l.length) :
    (l.eraseIdx i).length = l.length - 1 := by
  induction l generalizing i with
  | nil => simp at h
  | cons a as ih =>
    cases i with
    | zero => simp [List.eraseIdx]
    | succ j =>
      simp only [List.eraseIdx, List.length_cons]
      rw [ih j (by simpa using h)]
      simp at h
      omega

lemma erase_idx_getD_lt {α : Type} (l : List α) (i j : ℕ) (d : α) (h : j < i) :
    (l.eraseIdx i).getD j d = l.getD j d := by
  induction l generalizing i j with
  | nil => simp [List.eraseIdx]
  | cons a as ih =>
    cases i with
    | zero => omega
    | succ i2 =>
      cases j with
      | zero => simp [List.eraseIdx]
      | succ j2 =>
        simp only [List.eraseIdx, List.getD_cons_succ]
        exact ih i2 j2 (by omega)

lemma erase_idx_getD_ge {α : Type} (l : List α) (i j : ℕ) (d : α) (h : i ≤ j) :
    (l.eraseIdx i).getD j d = l.getD (j + 1) d := by
  induction l generalizing i j with
  | nil => simp [List.eraseIdx]
  | cons a as ih =>
    cases i with
    | zero => simp [List.eraseIdx]
    | succ i2 =>
      cases j with
      | zero => omega
      | succ j2 =>
        simp only [List.eraseIdx, List.getD_cons_succ]
        exact ih i2 j2 (by omega)

/-- Claim C7: deleting a valid position i from a store of length n
succeeds with True, leaves length n-1, shifts every record formerly at
position j greater than i down to j-1 with unchanged content (records
before i stay put), removes the vector at the same position from both
vector lists, and an invalid position fails with `NotFoundError`
leaving the state untouched. -/
theorem delete_company_renumbers :
    ∀ (s : DB) (i : ℤ),
      s.vector_db.length = s.company_db.length →
      s.needs_vector_db.length = s.company_db.length →
      ((0 ≤ i ∧ i.toNat < s.company_db.length) →
        (delete_company i s).1 = .ok true ∧
        (delete_company i s).2.company_db.length + 1 = s.company_db.length ∧
        (∀ j : ℕ, j < i.toNat →
          (delete_company i s).2.company_db.getD j default_company =
            s.company_db.getD j default_company) ∧
        (∀ j : ℕ, i.toNat < j → j < s.company_db.length →
          (delete_company i s).2.company_db.getD (j - 1) default_company =
            s.company_db.getD j default_company) ∧
        (delete_company i s).2.vector_db = s.vector_db.eraseIdx i.toNat ∧
        (delete_company i s).2.needs_vector_db = s.needs_vector_db.eraseIdx i.toNat ∧
        (delete_company i s).2.vector_db.length + 1 = s.vector_db.length ∧
        (delete_company i s).2.needs_vector_db.length + 1 = s.needs_vector_db.length) ∧
      (¬ (0 ≤ i ∧ i.toNat < s.company_db.length) →
        delete_company i s = (.error .notFound, s)) := by
  intro s i h1 h2
  constructor
  · intro hv
    have hvec : i.toNat < s.vector_db.length := by omega
    have hnvec : i.toNat < s.needs_vector_db.length := by omega
    unfold delete_company
    rw [if_pos hv]
    have hveq : (if i.toNat < s.vector_db.length then s.vector_db.eraseIdx i.toNat
        else s.vector_db) = s.vector_db.eraseIdx i.toNat := if_pos hvec
    have hnveq : (if i.toNat < s.needs_vector_db.length then s.needs_vector_db.eraseIdx i.toNat
        else s.needs_vector_db) = s.needs_vector_db.eraseIdx i.toNat := if_pos hnvec
    refine ⟨rfl, ?_, ?_, ?_, ?_, ?_, ?_, ?_⟩
    · show (s.company_db.eraseIdx i.toNat).length + 1 = s.company_db.length
      rw [erase_idx_len s.company_db i.toNat hv.2]
      omega
    · intro j hj
      exact erase_idx_getD_lt s.company_db i.toNat j default_company hj
    · intro j hj1 hj2
      show (s.company_db.eraseIdx i.toNat).getD (j - 1) default_company =
        s.company_db.getD j default_company
      rw [erase_idx_getD_ge s.company_db i.toNat (j - 1) default_company (by omega)]
      congr 1
      omega
    · exact hveq
    · exact hnveq
    · show (if i.toNat < s.vector_db.length then s.vector_db.eraseIdx i.toNat
        else s.vector_db).length + 1 = s.vector_db.length
      rw [hveq, erase_idx_len s.vector_db i.toNat hvec]
      omega
    · show (if i.toNat < s.needs_vector_db.length then s.needs_vector_db.eraseIdx i.toNat
        else s.needs_vector_db).length + 1 = s.needs_vector_db.length
      rw [hnveq, erase_idx_len s.needs_vector_db i.toNat hnvec]
      omega
  · intro hv
    unfold delete_company
    rw [if_neg hv]

/-- Witness for the C7 theorem: deleting position 0 of the two-record
state succeeds and shrinks the store to one record. -/
theorem delete_company_renumbers_witness :
    (delete_company 0 dbTwo).1 = .ok true ∧
    (delete_company 0 dbTwo).2.company_db.length + 1 = dbTwo.company_db.length := by
  have h := delete_company_renumbers dbTwo 0 (by with_unfolding_all decide)
    (by with_unfolding_all decide)
  have hv := h.1 (by with_unfolding_all decide)
  exact ⟨hv.1, hv.2.1⟩

-- === C9 ===

lemma build_index_ok_elim {dim : ℕ} : ∀ {l built : List Vec},
    build_index_from dim l = (none, built) → built = l := by
  intro l
  induction l with
  | nil =>
    intro built h
    unfold build_index_from at h
    injection h with _ h2
    exact h2.symm
  | cons v vs ih =>
    intro built h
    unfold build_index_from at h
    by_cases hd : v.length = dim
    · rw [if_pos hd] at h
      cases hb : build_index_from dim vs with
      | mk oe rest =>
        cases oe with
        | none =>
          rw [hb] at h
          injection h with _ h2
          rw [← h2, ih hb]
        | some e =>
          rw [hb] at h
          injection h with h1 _
          exact absurd h1.symm (by simp)
    · rw [if_neg hd] at h
      injection h with h1 _
      exact absurd h1.symm (by simp)

lemma build_index_fails {dim : ℕ} : ∀ {l : List Vec},
    (∃ v ∈ l, v.length ≠ dim) → (build_index_from dim l).1.isSome = true := by
  intro l
  induction l with
  | nil =>
    rintro ⟨v, hv, _⟩
    exact absurd hv (List.not_mem_nil v)
  | cons w ws ih =>
    rintro ⟨v, hv, hne⟩
    unfold build_index_from
    by_cases hd : w.length = dim
    · rw [if_pos hd]
      have hvw : v ∈ ws := by
        rcases List.mem_cons.mp hv with h | h
        · rw [h] at hne
          exact absurd hd hne
        · exact h
      have := ih ⟨v, hvw, hne⟩
      cases hb : build_index_from dim ws with
      | mk oe rest =>
        cases oe with
        | none => rw [hb] at this; exact absurd this (by simp)
        | some e => simp
    · rw [if_neg hd]
      simp

lemma rebuild_ok_elim {dim : ℕ} {s s2 : DB}
    (h : rebuild_faiss_index dim s = (none, s2)) :
    s2.index = s.vector_db ∧ s2.needs_index = s.needs_vector_db ∧
    s2.company_db = s.company_db ∧ s2.vector_db = s.vector_db ∧
    s2.needs_vector_db = s.needs_vector_db ∧ s2.index_dirty = false := by
  unfold rebuild_faiss_index at h
  cases hb1 : build_index_from dim s.vector_db with
  | mk oe1 built1 =>
    cases oe1 with
    | some e =>
      rw [hb1] at h
      injection h with h1 _
      exact absurd h1.symm (by simp)
    | none =>
      rw [hb1] at h
      cases hb2 : build_index_from dim s.needs_vector_db with
      | mk oe2 built2 =>
        cases oe2 with
        | some e =>
          rw [hb2] at h
          injection h with h1 _
          exact absurd h1.symm (by simp)
        | none =>
          rw [hb2] at h
          injection h with _ h2
          rw [← h2]
          exact ⟨build_index_ok_elim hb1, build_index_ok_elim hb2, rfl, rfl, rfl, rfl⟩

/-- Claim C9: index rebuild is effectively all-or-nothing.  A
dimension mismatch among the stored vectors makes the rebuild raise an
`EmbeddingError` and leaves the dirty flag unchanged (so a failed
rebuild never yields a clean flag), and every read that reaches the
index from a dirty state either fails or observes indices equal to the
FULL current vector lists, never a proper prefix. -/
theorem rebuild_all_or_nothing :
    (∀ (dim : ℕ) (s : DB),
      (∃ v ∈ s.vector_db ++ s.needs_vector_db, v.length ≠ dim) →
      (rebuild_faiss_index dim s).1 = some PyErr.embedding ∧
      (rebuild_faiss_index dim s).2.index_dirty = s.index_dirty) ∧
    (∀ (dim : ℕ) (qv : Vec) (query : String) (top_k : ℕ) (s : DB)
        (pairs : List (ℤ × ℚ)) (s2 : DB),
      s.index_dirty = true →
      search_embeddings dim (some qv) query top_k s = (.ok pairs, s2) →
      s2.index = s.vector_db ∧ s2.needs_index = s.needs_vector_db ∧
      pairs = faiss_search s.vector_db qv top_k) := by
  constructor
  · rintro dim s ⟨v, hv, hne⟩
    unfold rebuild_faiss_index
    rcases List.mem_append.mp hv with hmem | hmem
    · have hfail := build_index_fails ⟨v, hmem, hne⟩
      cases hb1 : build_index_from dim s.vector_db with
      | mk oe1 built1 =>
        cases oe1 with
        | some e => exact ⟨rfl, rfl⟩
        | none => rw [hb1] at hfail; exact absurd hfail (by simp)
    · cases hb1 : build_index_from dim s.vector_db with
      | mk oe1 built1 =>
        cases oe1 with
        | some e => exact ⟨rfl, rfl⟩
        | none =>
          have hfail := build_index_fails ⟨v, hmem, hne⟩
          cases hb2 : build_index_from dim s.needs_vector_db with
          | mk oe2 built2 =>
            cases oe2 with
            | some e => exact ⟨rfl, rfl⟩
            | none => rw [hb2] at hfail; exact absurd hfail (by simp)
  · intro dim qv query top_k s pairs s2 hdirty h
    obtain ⟨hp, hens⟩ := search_embeddings_ok_elim h
    unfold ensure_indices_current at hens
    rw [hdirty] at hens
    rw [if_pos rfl] at hens
    obtain ⟨hi, hni, _, hvdb, hnvdb, _⟩ := rebuild_ok_elim hens
    refine ⟨hi, hni, ?_⟩
    rw [hp, hi]

/-- Witness for the C9 theorem: a successful read from a dirty state
searched exactly the full vector list. -/
theorem rebuild_all_or_nothing_witness :
    dbOne.index = (mark_indices_dirty dbOne).vector_db ∧
    dbOne.needs_index = (mark_indices_dirty dbOne).needs_vector_db ∧
    [((0 : ℤ), (0 : ℚ))] ++ List.replicate 0 ((-1 : ℤ), FLT_MAX) =
      faiss_search (mark_indices_dirty dbOne).vector_db [0] 1 :=
  rebuild_all_or_nothing.2 1 [0] "q" 1 (mark_indices_dirty dbOne)
    ([((0 : ℤ), (0 : ℚ))] ++ List.replicate 0 ((-1 : ℤ), FLT_MAX)) dbOne rfl
    (by with_unfolding_all decide)

-- === C3 ===

lemma list_map_set {α β : Type} (f : α → β) (l : List α) (i : ℕ) (a : α) :
    (l.set i a).map f = (l.map f).set i (f a) := by
  induction l generalizing i with
  | nil => simp
  | cons x xs ih =>
    cases i with
    | zero => simp
    | succ j => simp [ih]

lemma list_map_erase_idx {α β : Type} (f : α → β) (l : List α) (i : ℕ) :
    (l.eraseIdx i).map f = (l.map f).eraseIdx i := by
  induction l generalizing i with
  | nil => simp [List.eraseIdx]
  | cons x xs ih =>
    cases i with
    | zero => simp [List.eraseIdx]
    | succ j => simp [List.eraseIdx, ih]

lemma create_preserves_consistency {dim : ℕ} {embed : String → Vec} {c : Company} {s : DB}
    (h1 : (embed (combine_text_blob c.description c.challenges)).length = dim)
    (h2 : (embed c.needs).length = dim)
    (hinv : embeddings_consistent embed s) :
    embeddings_consistent embed (create_company_profile dim embed true true c s).2 := by
  obtain ⟨hv, hn⟩ := hinv
  unfold embeddings_consistent at *
  simp [create_company_profile, add_embedding_to_index, h1, h2, hv, hn]

lemma update_preserves_consistency {embed : String → Vec} {i : ℤ} {c : Company} {s : DB}
    (hinv : embeddings_consistent embed s) :
    embeddings_consistent embed (update_company embed true true i c s).2 := by
  obtain ⟨hv, hn⟩ := hinv
  unfold update_company
  by_cases hidx : 0 ≤ i ∧ i.toNat < s.company_db.length
  · rw [if_pos hidx]
    have hvl : s.vector_db.length = s.company_db.length := by
      rw [hv, List.length_map]
    have hnl : s.needs_vector_db.length = s.company_db.length := by
      rw [hn, List.length_map]
    have hp1 : pad_to (i.toNat + 1) s.vector_db = s.vector_db := by
      unfold pad_to
      have hz : (i.toNat + 1) - s.vector_db.length = 0 := by omega
      rw [hz]
      simp
    have hp2 : pad_to (i.toNat + 1) s.needs_vector_db = s.needs_vector_db := by
      unfold pad_to
      have hz : (i.toNat + 1) - s.needs_vector_db.length = 0 := by omega
      rw [hz]
      simp
    constructor
    · show (pad_to (i.toNat + 1) s.vector_db).set i.toNat
        (embed (combine_text_blob c.description c.challenges)) =
        (s.company_db.set i.toNat c).map
          (fun c => embed (combine_text_blob c.description c.challenges))
      rw [hp1, hv, list_map_set]
    · show (pad_to (i.toNat + 1) s.needs_vector_db).set i.toNat (embed c.needs) =
        (s.company_db.set i.toNat c).map (fun c => embed c.needs)
      rw [hp2, hn, list_map_set]
  · rw [if_neg hidx]
    exact ⟨hv, hn⟩

lemma delete_preserves_consistency {embed : String → Vec} {i : ℤ} {s : DB}
    (hinv : embeddings_consistent embed s) :
    embeddings_consistent embed (delete_company i s).2 := by
  obtain ⟨hv, hn⟩ := hinv
  unfold delete_company
  by_cases hidx : 0 ≤ i ∧ i.toNat < s.company_db.length
  · rw [if_pos hidx]
    have hvl : i.toNat < s.vector_db.length := by
      rw [hv, List.length_map]
      exact hidx.2
    have hnl : i.toNat < s.needs_vector_db.length := by
      rw [hn, List.length_map]
      exact hidx.2
    constructor
    · show (if i.toNat < s.vector_db.length then s.vector_db.eraseIdx i.toNat
        else s.vector_db) = (s.company_db.eraseIdx i.toNat).map
          (fun c => embed (combine_text_blob c.description c.challenges))
      rw [if_pos hvl, hv, list_map_erase_idx]
    · show (if i.toNat < s.needs_vector_db.length then s.needs_vector_db.eraseIdx i.toNat
        else s.needs_vector_db) = (s.company_db.eraseIdx i.toNat).map
          (fun c => embed c.needs)
      rw [if_pos hnl, hn, list_map_erase_idx]
  · rw [if_neg hidx]
    exact ⟨hv, hn⟩

/-- Claim C3 as amended: after every sequence of create, update and
delete operations in which every embedding call succeeds and every
produced vector has the index dimension, the vector at each position
of each of the two vector lists is exactly the embedding of the record
at the same position of the store.  (The unamended claim, covering
failing embedding calls too, is refuted by
`update_failure_breaks_consistency`.) -/
theorem consistency_preserved_when_embedding_succeeds :
    ∀ (dim : ℕ) (embed : String → Vec) (ops : List DBOp) (s : DB),
      (∀ op ∈ ops, op_embed_calls_ok dim embed op = true) →
      embeddings_consistent embed s →
      embeddings_consistent embed (run_db_ops dim embed ops s) := by
  intro dim embed ops
  induction ops with
  | nil =>
    intro s _ h
    exact h
  | cons op rest ih =>
    intro s hops hinv
    have hop := hops op (by simp)
    have hrest : ∀ o ∈ rest, op_embed_calls_ok dim embed o = true :=
      fun o ho => hops o (by simp [ho])
    unfold run_db_ops
    rw [List.foldl_cons]
    apply ih _ hrest
    cases op with
    | opCreate c d n =>
      simp only [op_embed_calls_ok, Bool.and_eq_true, decide_eq_true_eq] at hop
      obtain ⟨⟨⟨hd, hn2⟩, hl1⟩, hl2⟩ := hop
      subst hd
      subst hn2
      exact create_preserves_consistency hl1 hl2 hinv
    | opUpdate i c d n =>
      simp only [op_embed_calls_ok, Bool.and_eq_true] at hop
      obtain ⟨hd, hn2⟩ := hop
      subst hd
      subst hn2
      exact update_preserves_consistency hinv
    | opDelete i =>
      exact delete_preserves_consistency hinv

/-- A deterministic stand-in embedding provider: the vector is the
one-element list holding the text length, so different-length texts
get different vectors. -/
def embed_len : String → Vec := fun t => [(t.length : ℚ)]

def companyA2 : Company := { companyA with description := "alphaXX" }

/-- Counterexample to claim C3 as stated: create company A (all calls
succeed), then update position 0 to new data with a failing
description-embedding call.  `update_company` has already replaced the
record when the embedding call fails, so afterwards the vector at
position 0 is the embedding of the OLD record, not of the record now
stored at position 0. -/
theorem update_failure_breaks_consistency :
    embeddings_consistent embed_len emptyDB ∧
    op_embed_calls_ok 1 embed_len (.opCreate companyA true true) = true ∧
    ¬ embeddings_consistent embed_len
      (run_db_ops 1 embed_len
        [.opCreate companyA true true, .opUpdate 0 companyA2 false true] emptyDB) ∧
    (update_company embed_len false true 0 companyA2
      (run_db_ops 1 embed_len [.opCreate companyA true true] emptyDB)).1 =
      .error .database := by
  refine ⟨?_, ?_, ?_, ?_⟩
  · with_unfolding_all decide
  · with_unfolding_all decide
  · with_unfolding_all decide
  · with_unfolding_all decide

/-- Witness for the amended C3 theorem on a concrete failure-free
sequence. -/
theorem consistency_preserved_witness :
    embeddings_consistent embed_len
      (run_db_ops 1 embed_len
        [.opCreate companyA true true, .opCreate companyB true true, .opDelete 0]
        emptyDB) :=
  consistency_preserved_when_embedding_succeeds 1 embed_len
    [.opCreate companyA true true, .opCreate companyB true true, .opDelete 0]
    emptyDB (by with_unfolding_all decide) (by with_unfolding_all decide)

-- === C8 ===

/-- Whether the record at position x satisfies one criterion (false
when no record exists at x), mirroring the keep-condition of the
corresponding single filter stage. -/
def crit_check (db : List Company) (x : ℤ) : Criterion → Bool
  | .cMinRevenue n =>
    match get_company x db with
    | some c => decide (n ≤ c.revenue)
    | none => false
  | .cMaxRevenue n =>
    match get_company x db with
    | some c => decide (c.revenue ≤ n)
    | none => false
  | .cMinTeamSize n =>
    match get_company x db with
    | some c => decide (n ≤ c.team_size)
    | none => false
  | .cMaxTeamSize n =>
    match get_company x db with
    | some c => decide (c.team_size ≤ n)
    | none => false
  | .cMinFounded n =>
    match get_company x db with
    | some c => decide (n ≤ c.founded)
    | none => false
  | .cMaxFounded n =>
    match get_company x db with
    | some c => decide (c.founded ≤ n)
    | none => false
  | .cIndustry l =>
    match get_company x db with
    | some c => (l.map (fun v => pyStrip (pyLower v))).contains (pyStrip (pyLower c.industry))
    | none => false
  | .cLocation l =>
    match get_company x db with
    | some c => (l.map (fun v => pyStrip (pyLower v))).contains (pyStrip (pyLower c.location))
    | none => false
  | .cNameContains v =>
    match get_company x db with
    | some c => str_has_sub (pyStrip (pyLower v)) (pyLower c.name)
    | none => false
  | .cWebsiteDomain v =>
    match get_company x db with
    | some c => str_has_sub (pyStrip (pyLower v)) (pyLower c.website)
    | none => false

lemma mem_apply_single (db : List Company) (pos : List ℤ) (x : ℤ) (a : Criterion) :
    x ∈ apply_filters db pos (single_crit a) ↔ x ∈ pos ∧ crit_check db x a = true := by
  cases a <;>
    simp [single_crit, add_crit, no_filters, apply_filters,
      filter_by_revenue_range, filter_by_team_size_range, filter_by_founded_range,
      filter_by_industry, filter_by_location, filter_by_name_contains,
      filter_by_website_domain, crit_check, List.mem_filter]

lemma mem_apply_pair (db : List Company) (pos : List ℤ) (x : ℤ) (a b : Criterion)
    (hk : crit_key a ≠ crit_key b) :
    x ∈ apply_filters db pos (pair_crit a b) ↔
      x ∈ pos ∧ crit_check db x a = true ∧ crit_check db x b = true := by
  cases a <;> cases b <;>
    first
      | exact absurd rfl hk
      | (simp [pair_crit, single_crit, add_crit, no_filters, apply_filters,
           filter_by_revenue_range, filter_by_team_size_range, filter_by_founded_range,
           filter_by_industry, filter_by_location, filter_by_name_contains,
           filter_by_website_domain, crit_check, List.mem_filter]
         <;> (cases hg : get_company x db <;> simp [hg] <;> tauto))

/-- Claim C8: applying a two-key filter dictionary equals the
set-intersection of applying each key alone, and the empty filter
dictionary is the identity on the position list. -/
theorem apply_filters_conjunction_and_identity :
    (∀ (db : List Company) (pos : List ℤ) (a b : Criterion),
      crit_key a ≠ crit_key b →
      (apply_filters db pos (pair_crit a b)).toFinset =
        (apply_filters db pos (single_crit a)).toFinset ∩
          (apply_filters db pos (single_crit b)).toFinset) ∧
    (∀ (db : List Company) (pos : List ℤ), apply_filters db pos no_filters = pos) := by
  constructor
  · intro db pos a b hk
    ext x
    simp only [List.mem_toFinset, Finset.mem_inter]
    rw [mem_apply_single, mem_apply_single, mem_apply_pair db pos x a b hk]
    tauto
  · intro db pos
    rfl

/-- Witness for the C8 theorem on a concrete store, position list and
pair of criteria. -/
theorem apply_filters_conjunction_witness :
    (apply_filters [companyA, companyB] [0, 1]
        (pair_crit (.cMinRevenue 200) (.cIndustry ["health"]))).toFinset =
      (apply_filters [companyA, companyB] [0, 1] (single_crit (.cMinRevenue 200))).toFinset ∩
        (apply_filters [companyA, companyB] [0, 1] (single_crit (.cIndustry ["health"]))).toFinset :=
  apply_filters_conjunction_and_identity.1 [companyA, companyB] [0, 1]
    (.cMinRevenue 200) (.cIndustry ["health"]) (by with_unfolding_all decide)
